import Mathlib

/-!
Verification of the marimba project/pipeline orchestration core.

This file gives a shallow embedding, in Lean, of the plugin-discovery and
command-dispatch core of the marimba repository:

* `get_merged_keyword_args` (marimba/wrappers/project.py, lines 45-68),
* `load_pipeline_instance` (marimba/core/parallel/pipeline_loader.py),
* `PipelineWrapper.get_pipeline_class` and `PipelineWrapper.save_config`
  (marimba/core/wrappers/pipeline.py),
* `ProjectWrapper.run_command`, `ProjectWrapper.compose` and
  `ProjectWrapper.update_pipelines` (marimba/wrappers/project.py),

together with theorems settling the behavioural claims about them.

Python values are modelled as follows: a Python `str` that is subject to
character-level operations is a `List Char` (named `PyStr`); a Python `dict`
is an association list with unique keys manipulated through `dictSet` /
`dictGet` / `dictMerge`, which mirror item assignment, `d.get(k)` and
`{**a, **b}` respectively; a raised exception is an `Except.error` carrying
a `PyError` that records the exception class name and its message; the
process-global `sys.path` is threaded explicitly as a `List String`.
External collaborators that are not part of the core (the YAML codec, git,
the deployment wrapper's data-directory resolution, the plugin instances
supplied by the loaded module) are abstracted as function-valued fields, so
every theorem quantifies over arbitrary collaborator behaviour.
-/

/-- A Python string, modelled as its list of characters. -/
abbrev PyStr := List Char

/-- Python `str.split(sep)` for a single-character separator and no maxsplit:
`''.split(sep) = ['']`, and each occurrence of `sep` starts a new chunk. -/
def pySplit (sep : Char) : List Char → List (List Char)
  | [] => [[]]
  | c :: cs =>
    match pySplit sep cs with
    | [] => [[c]]
    | h :: t => if c = sep then [] :: h :: t else (c :: h) :: t

/-- Membership test on a Python dict modelled as an association list. -/
def dictContains {α β : Type} [DecidableEq α] : List (α × β) → α → Bool
  | [], _ => false
  | p :: rest, k => p.1 = k || dictContains rest k

/-- Python `d.get(k)`: the value at the (unique) occurrence of `k`, if any. -/
def dictGet {α β : Type} [DecidableEq α] : List (α × β) → α → Option β
  | [], _ => none
  | p :: rest, k => if p.1 = k then some p.2 else dictGet rest k

/-- Python `d[k] = v` on a dict: overwriting an existing key keeps its
position, a new key is appended at the end (insertion order). -/
def dictSet {α β : Type} [DecidableEq α] : List (α × β) → α → β → List (α × β)
  | [], k, v => [(k, v)]
  | p :: rest, k, v => if p.1 = k then (k, v) :: rest else p :: dictSet rest k v

/-- Python `{**d1, **d2}`: start from `d1` and assign every item of `d2`. -/
def dictMerge {α β : Type} [DecidableEq α] (d1 d2 : List (α × β)) : List (α × β) :=
  d2.foldl (fun acc p => dictSet acc p.1 p.2) d1

/-- Embedding of `get_merged_keyword_args(kwargs, extra_args, logger)`
(marimba/wrappers/project.py, lines 45-68).  Each extra argument is split on
`"="`; a split of exactly two parts contributes `extra_dict[key] = value`,
anything else is logged as a warning and dropped.  The result is
`{**kwargs, **extra_dict}` paired with the list of warned-about arguments. -/
def get_merged_keyword_args (kwargs : List (PyStr × PyStr)) (extra_args : List PyStr) :
    List (PyStr × PyStr) × List PyStr :=
  let r := extra_args.foldl
    (fun acc arg =>
      match pySplit '=' arg with
      | [key, value] => (dictSet acc.1 key value, acc.2)
      | _ => (acc.1, acc.2 ++ [arg]))
    ([], [])
  (dictMerge kwargs r.1, r.2)

/-- Specification-side reading of one extra argument: an entry containing
exactly one `'='` binds the text before the first `'='` to the text after
it; any other entry is malformed. -/
def wellFormedBinding (s : PyStr) : Option (PyStr × PyStr) :=
  if s.count '=' = 1 then
    some (s.takeWhile (fun c => c ≠ '='), (s.dropWhile (fun c => c ≠ '=')).tail)
  else none

/-- Specification-side extra-argument dict: the well-formed bindings,
assigned in order into an initially empty dict. -/
def specExtraDict (args : List PyStr) : List (PyStr × PyStr) :=
  (args.filterMap wellFormedBinding).foldl (fun d p => dictSet d p.1 p.2) []

/-- A raised Python exception: its class name and its message. -/
structure PyError where
  kind : String
  msg : String
deriving DecidableEq

/-- The exception class of a computation's outcome, if it raised. -/
def exceptKind {α : Type} : Except PyError α → Option String
  | .error e => some e.kind
  | .ok _ => none

/-- Message of the zero-match discovery failure
(`f'No pipeline implementation found in "{repo_dir}".'`). -/
def noImplMsg (repo_dir : String) : String :=
  "No pipeline implementation found in \"" ++ repo_dir ++ "\"."

/-- Message of the multiple-match discovery failure
(`f'Multiple pipeline implementations found in "{repo_dir}": {paths}.'`). -/
def multiImplMsg (repo_dir : String) (paths : List String) : String :=
  "Multiple pipeline implementations found in \"" ++ repo_dir ++ "\": " ++
    String.intercalate ", " paths ++ "."

/-- One top-level symbol of an executed plugin module, as seen by the
reflective scan `isinstance(obj, type) and issubclass(obj, BasePipeline)
and obj is not BasePipeline`.  `class_id` stands for the identity of the
class object bound to the symbol. -/
structure ModuleSymbol where
  is_type : Bool
  subclasses_base_pipeline : Bool
  is_base_pipeline : Bool
  class_id : Nat
deriving DecidableEq

/-- Whether a scanned symbol qualifies as a concrete `BasePipeline`
implementation. -/
def qualifies (s : ModuleSymbol) : Bool :=
  s.is_type && s.subclasses_base_pipeline && !s.is_base_pipeline

/-- What the filesystem and the Python import machinery yield for one
repository directory: the result of `repo_dir.glob("**/*.pipeline.py")`,
whether `spec_from_file_location` returns a spec, whether that spec has a
loader, whether `exec_module` completes without raising, and the executed
module's `__dict__` in iteration order. -/
structure RepoEnv where
  module_paths : List String
  spec_ok : Bool
  loader_ok : Bool
  exec_ok : Bool
  symbols : List (String × ModuleSymbol)
deriving DecidableEq

/-- Embedding of `load_pipeline_instance(repo_dir, config_path, dry_run)`
(marimba/core/parallel/pipeline_loader.py, lines 29-93).  The second
component of the result is the value of `sys.path` when the function
returns or raises; the input `sys_path` is its value on entry.  The
successful result is the identity of the instantiated pipeline class.
Note that the source pops the inserted `sys.path` entry only on the path
that reaches line 78: the `loader is None` raise and an exception from
`exec_module` leave the inserted entry in place. -/
def load_pipeline_instance (env : RepoEnv) (repo_dir : String)
    (sys_path : List String) : Except PyError Nat × List String :=
  match env.module_paths with
  | [] => (.error ⟨"FileNotFoundError", noImplMsg repo_dir⟩, sys_path)
  | [_] =>
    if env.spec_ok then
      let sp1 := repo_dir :: sys_path
      if env.loader_ok then
        if env.exec_ok then
          let sp2 := sp1.drop 1
          match env.symbols.find? (fun s => qualifies s.2) with
          | none =>
            (.error ⟨"ImportError", "Pipeline class has not been set or could not be found."⟩, sp2)
          | some s => (.ok s.2.class_id, sp2)
        else (.error ⟨"Exception", "exec_module raised"⟩, sp1)
      else (.error ⟨"ImportError", "Could not find loader"⟩, sp1)
    else (.error ⟨"ImportError", "Could not load spec"⟩, sys_path)
  | _ => (.error ⟨"FileNotFoundError", multiImplMsg repo_dir env.module_paths⟩, sys_path)

/-- The mutable state of one `PipelineWrapper` (marimba/core/wrappers/
pipeline.py) that `get_pipeline_class` touches: the cached class reference
`self._pipeline_class` and the process-global `sys.path`. -/
structure PipelineClassState where
  pipeline_class : Option Nat
  sys_path : List String
deriving DecidableEq

/-- Embedding of `PipelineWrapper.get_pipeline_class` (marimba/core/
wrappers/pipeline.py, lines 239-299).  When `self._pipeline_class` is
already set the guarded block is skipped entirely; otherwise the repository
is scanned, the module executed, and the first qualifying symbol (if any)
cached.  Returns the source's return value (`self._pipeline_class`, which
may still be `None` when no symbol qualifies) together with the updated
state. -/
def get_pipeline_class (env : RepoEnv) (repo_dir : String)
    (st : PipelineClassState) : Except PyError (Option Nat) × PipelineClassState :=
  match st.pipeline_class with
  | some c => (.ok (some c), st)
  | none =>
    match env.module_paths with
    | [] => (.error ⟨"FileNotFoundError", noImplMsg repo_dir⟩, st)
    | [_] =>
      if env.spec_ok then
        let st1 : PipelineClassState := ⟨st.pipeline_class, repo_dir :: st.sys_path⟩
        if env.loader_ok then
          if env.exec_ok then
            let st2 : PipelineClassState := ⟨st1.pipeline_class, st1.sys_path.drop 1⟩
            let found := (env.symbols.find? (fun s => qualifies s.2)).map (fun s => s.2.class_id)
            (.ok found, ⟨found, st2.sys_path⟩)
          else (.error ⟨"Exception", "exec_module raised"⟩, st1)
        else (.error ⟨"ImportError", "Could not find loader"⟩, st1)
      else (.error ⟨"ImportError", "Could not load spec"⟩, st)
    | _ => (.error ⟨"FileNotFoundError", multiImplMsg repo_dir env.module_paths⟩, st)

/-- Embedding of `PipelineWrapper.save_config` (marimba/core/wrappers/
pipeline.py, lines 199-207).  `config` is `None` or a dict; `write` is the
external config codec `save_config(path, config)` acting on the config
file's contents, and `file` is those contents before the call.  The source
guards the codec call with Python truthiness: `if config:`. -/
def save_config {K V F : Type} (write : List (K × V) → F → F)
    (config : Option (List (K × V))) (file : F) : F :=
  match config with
  | none => file
  | some c => if c.isEmpty then file else write c file

/-- A live plugin instance as `ProjectWrapper` uses it: `hasCommand`
models `hasattr(instance, command_name)`, `invoke` models
`getattr(instance, command_name)(data_dir, config, **merged_kwargs)`,
and `run_compose` models `instance.run_compose(data_dirs, configs,
**merged_kwargs)`.  The behaviour of the externally supplied plugin is
arbitrary, so these are opaque function fields. -/
structure PluginInstance (Dir Cfg Res Comp : Type) where
  hasCommand : String → Bool
  invoke : String → Dir → Cfg → List (PyStr × PyStr) → Res
  run_compose : List Dir → List Cfg → List (PyStr × PyStr) → Comp

/-- A deployment wrapper as `ProjectWrapper` uses it: the per-pipeline
data directory `get_pipeline_data_dir(pipeline_name)` and the persisted
configuration returned by `load_config()`. -/
structure DeploymentWrapper (Dir Cfg : Type) where
  get_pipeline_data_dir : String → Dir
  load_config : Cfg

/-- A pipeline wrapper as `ProjectWrapper` uses it: `load_pipeline()`
either returns the plugin instance or raises, and `update()` either
completes or raises. -/
structure PipelineWrapper (Dir Cfg Res Comp : Type) where
  load_pipeline : Except PyError (PluginInstance Dir Cfg Res Comp)
  update : Except PyError Unit

/-- A loaded project: its `_pipeline_wrappers` and `_deployment_wrappers`
dicts, keyed by directory name in enumeration order. -/
structure ProjectWrapper (Dir Cfg Res Comp : Type) where
  pipeline_wrappers : List (String × PipelineWrapper Dir Cfg Res Comp)
  deployment_wrappers : List (String × DeploymentWrapper Dir Cfg)

/-- The `RunCommandError` raised when a requested pipeline name is not in
the project (`f'Instrument "{name}" does not exist within the project.'`). -/
def instrumentMissingError (name : String) : PyError :=
  ⟨"RunCommandError", "Instrument \"" ++ name ++ "\" does not exist within the project."⟩

/-- The `RunCommandError` raised when a requested deployment name is not in
the project (`f'Deployment "{name}" does not exist within the project.'`). -/
def deploymentMissingError (name : String) : PyError :=
  ⟨"RunCommandError", "Deployment \"" ++ name ++ "\" does not exist within the project."⟩

/-- The `RunCommandError` raised when the requested command is absent on a
loaded plugin instance (`f'Command "{command_name}" does not exist for
instrument "{run_pipeline_name}".'`). -/
def commandNotExistError (command_name pipeline_name : String) : PyError :=
  ⟨"RunCommandError",
    "Command \"" ++ command_name ++ "\" does not exist for instrument \"" ++
      pipeline_name ++ "\"."⟩

/-- Target selection of `run_command` (lines 340-352 of project.py): a given
name must exist (else the corresponding `RunCommandError`) and selects a
single entry; no name selects the whole registry. -/
def selectTargets {α : Type} (table : List (String × α)) (name : Option String)
    (missingError : String → PyError) : Except PyError (List (String × α)) :=
  match name with
  | none => .ok table
  | some n =>
    match dictGet table n with
    | none => .error (missingError n)
    | some w => .ok [(n, w)]

/-- The eager load of every targeted pipeline (line 355 of project.py): the
dict comprehension runs the loads in order and the first raising load
aborts the whole command. -/
def loadAll {Dir Cfg Res Comp : Type} :
    List (String × PipelineWrapper Dir Cfg Res Comp) →
      Except PyError (List (String × PluginInstance Dir Cfg Res Comp))
  | [] => .ok []
  | (n, w) :: rest =>
    match w.load_pipeline with
    | .error e => .error e
    | .ok p =>
      match loadAll rest with
      | .error e => .error e
      | .ok ps => .ok ((n, p) :: ps)

/-- The `hasattr` pre-check of `run_command` (lines 358-360 of project.py):
the first loaded pipeline lacking the command, if any, in iteration order. -/
def findMissingCommand {Dir Cfg Res Comp : Type} (command_name : String) :
    List (String × PluginInstance Dir Cfg Res Comp) → Option String
  | [] => none
  | (n, p) :: rest =>
    if p.hasCommand command_name then findMissingCommand command_name rest else some n

/-- The fan-out loop of `run_command` (lines 362-377 of project.py), in
deployment-major order.  Returns the `{deployment: {pipeline: result}}`
aggregate together with the trace of `(deployment, pipeline)` pairs on
which the named operation was invoked, in invocation order. -/
def invokeLoop {Dir Cfg Res Comp : Type}
    (pipeline_to_run : List (String × PluginInstance Dir Cfg Res Comp))
    (command_name : String) (merged_kwargs : List (PyStr × PyStr)) :
    List (String × DeploymentWrapper Dir Cfg) →
      List (String × List (String × Res)) × List (String × String)
  | [] => ([], [])
  | (dn, dw) :: rest =>
    let results_by_pipeline := pipeline_to_run.map (fun p =>
      (p.1, p.2.invoke command_name (dw.get_pipeline_data_dir p.1) dw.load_config merged_kwargs))
    let trace := pipeline_to_run.map (fun p => (dn, p.1))
    let r := invokeLoop pipeline_to_run command_name merged_kwargs rest
    ((dn, results_by_pipeline) :: r.1, trace ++ r.2)

/-- Embedding of `ProjectWrapper.run_command` (marimba/wrappers/project.py,
lines 309-377).  The second component is the trace of per-pair invocations
of the named operation that actually happened before the function returned
or raised; every raising exit occurs before the fan-out loop, so it carries
an empty trace. -/
def run_command {Dir Cfg Res Comp : Type} (proj : ProjectWrapper Dir Cfg Res Comp)
    (command_name : String) (pipeline_name deployment_name : Option String)
    (extra_args : List PyStr) (kwargs : List (PyStr × PyStr)) :
    Except PyError (List (String × List (String × Res))) × List (String × String) :=
  let merged_kwargs := (get_merged_keyword_args kwargs extra_args).1
  match selectTargets proj.pipeline_wrappers pipeline_name instrumentMissingError with
  | .error e => (.error e, [])
  | .ok pipeline_wrappers_to_run =>
    match selectTargets proj.deployment_wrappers deployment_name deploymentMissingError with
    | .error e => (.error e, [])
    | .ok deployment_wrappers_to_run =>
      match loadAll pipeline_wrappers_to_run with
      | .error e => (.error e, [])
      | .ok pipeline_to_run =>
        match findMissingCommand command_name pipeline_to_run with
        | some n => (.error (commandNotExistError command_name n), [])
        | none =>
          let r := invokeLoop pipeline_to_run command_name merged_kwargs deployment_wrappers_to_run
          (.ok r.1, r.2)

/-- Deployment resolution of `compose` (lines 409-414 of project.py): the
wrappers of the named deployments in the order the names were given, or a
`NoSuchDeploymentError` naming the first missing one. -/
def resolveDeployments {Dir Cfg : Type}
    (deployment_wrappers : List (String × DeploymentWrapper Dir Cfg)) :
    List String → Except PyError (List (DeploymentWrapper Dir Cfg))
  | [] => .ok []
  | n :: rest =>
    match dictGet deployment_wrappers n with
    | none => .error ⟨"NoSuchDeploymentError", n⟩
    | some dw =>
      match resolveDeployments deployment_wrappers rest with
      | .error e => .error e
      | .ok dws => .ok (dw :: dws)

/-- Embedding of `ProjectWrapper.compose` (marimba/wrappers/project.py,
lines 379-423): resolve the pipeline, load its plugin, resolve every named
deployment, gather data directories and configurations in the given order,
and invoke the plugin's `run_compose` once with the full ordered lists. -/
def compose {Dir Cfg Res Comp : Type} (proj : ProjectWrapper Dir Cfg Res Comp)
    (pipeline_name : String) (deployment_names : List String)
    (extra_args : List PyStr) (kwargs : List (PyStr × PyStr)) : Except PyError Comp :=
  let merged_kwargs := (get_merged_keyword_args kwargs extra_args).1
  match dictGet proj.pipeline_wrappers pipeline_name with
  | none => .error ⟨"NoSuchPipelineError", pipeline_name⟩
  | some pipeline_wrapper =>
    match pipeline_wrapper.load_pipeline with
    | .error e => .error e
    | .ok pipeline =>
      match resolveDeployments proj.deployment_wrappers deployment_names with
      | .error e => .error e
      | .ok deployment_wrappers =>
        let deployment_data_dirs :=
          deployment_wrappers.map (fun dw => dw.get_pipeline_data_dir pipeline_name)
        let deployment_configs := deployment_wrappers.map (fun dw => dw.load_config)
        .ok (pipeline.run_compose deployment_data_dirs deployment_configs merged_kwargs)

/-- One log line of `update_pipelines`: either the success info message or
the caught-and-logged failure for one pipeline. -/
inductive UpdateLogEntry where
  | updated (name : String)
  | failed (name : String) (e : PyError)
deriving DecidableEq

/-- The pipeline name an `update_pipelines` log entry is about. -/
def UpdateLogEntry.name : UpdateLogEntry → String
  | .updated n => n
  | .failed n _ => n

/-- Embedding of `ProjectWrapper.update_pipelines` (marimba/wrappers/
project.py, lines 452-462): iterate every registered pipeline, call its
`update()`, and catch any exception, logging it and moving on.  The result
is the log of per-pipeline outcomes in iteration order. -/
def update_pipelines {Dir Cfg Res Comp : Type} :
    List (String × PipelineWrapper Dir Cfg Res Comp) → List UpdateLogEntry
  | [] => []
  | (n, w) :: rest =>
    match w.update with
    | .ok _ => .updated n :: update_pipelines rest
    | .error e => .failed n e :: update_pipelines rest

/-- A repository directory whose recursive glob finds no `*.pipeline.py`. -/
def envZeroMatches : RepoEnv := ⟨[], true, true, true, []⟩

/-- A repository directory whose recursive glob finds two `*.pipeline.py`
files. -/
def envTwoMatches : RepoEnv :=
  ⟨["repo/a.pipeline.py", "repo/b.pipeline.py"], true, true, true, []⟩

/-- A repository with exactly one plugin-definition file whose module body
raises while being executed by `exec_module`. -/
def envExecRaises : RepoEnv := ⟨["repo/x.pipeline.py"], true, true, false, []⟩

/-- A repository with exactly one plugin-definition file exporting exactly
one qualifying `BasePipeline` subclass, whose class object has identity 7. -/
def envGood : RepoEnv :=
  ⟨["repo/x.pipeline.py"], true, true, true, [("XPipeline", ⟨true, true, false, 7⟩)]⟩

/-- A plugin instance that supports `run_process`, echoing its data
directory and configuration, and answers compose with the ordered argument
lists it was given. -/
def plugProcess : PluginInstance String String String (List String × List String) where
  hasCommand := fun c => decide (c = "run_process")
  invoke := fun _ data_dir config _ => data_dir ++ "|" ++ config
  run_compose := fun data_dirs configs _ => (data_dirs, configs)

/-- A plugin instance on which `hasattr` fails for every command name. -/
def plugNoCmd : PluginInstance String String String (List String × List String) where
  hasCommand := fun _ => false
  invoke := fun _ data_dir config _ => data_dir ++ "|" ++ config
  run_compose := fun data_dirs configs _ => (data_dirs, configs)

/-- A deployment wrapper whose per-pipeline data directory is
`data/<deployment>/<pipeline>` and whose configuration is `cfg-<deployment>`. -/
def demoDeployment (n : String) : DeploymentWrapper String String where
  get_pipeline_data_dir := fun pn => "data/" ++ n ++ "/" ++ pn
  load_config := "cfg-" ++ n

/-- A project with two pipelines that both support `run_process` and two
deployments. -/
def demoProj : ProjectWrapper String String String (List String × List String) where
  pipeline_wrappers :=
    [("camA", ⟨.ok plugProcess, .ok ()⟩), ("camB", ⟨.ok plugProcess, .ok ()⟩)]
  deployment_wrappers := [("d1", demoDeployment "d1"), ("d2", demoDeployment "d2")]

/-- The loaded plugin instances of `demoProj`, in registry order. -/
def demoLoaded : List (String × PluginInstance String String String (List String × List String)) :=
  [("camA", plugProcess), ("camB", plugProcess)]

/-- A project whose second pipeline's plugin lacks every command. -/
def demoProjBad : ProjectWrapper String String String (List String × List String) where
  pipeline_wrappers :=
    [("camA", ⟨.ok plugProcess, .ok ()⟩), ("camB", ⟨.ok plugNoCmd, .ok ()⟩)]
  deployment_wrappers := [("d1", demoDeployment "d1")]

/-- The loaded plugin instances of `demoProjBad`, in registry order. -/
def demoLoadedBad : List (String × PluginInstance String String String (List String × List String)) :=
  [("camA", plugProcess), ("camB", plugNoCmd)]

theorem pySplit_ne_nil (sep : Char) (s : List Char) : pySplit sep s ≠ [] := by
  induction s with
  | nil => simp [pySplit]
  | cons c cs ih =>
    cases h : pySplit sep cs with
    | nil => exact absurd h ih
    | cons hd tl =>
      unfold pySplit
      rw [h]
      by_cases hc : c = sep <;> simp [hc]

theorem pySplit_length (sep : Char) (s : List Char) :
    (pySplit sep s).length = s.count sep + 1 := by
  induction s with
  | nil => simp [pySplit]
  | cons c cs ih =>
    unfold pySplit
    cases h : pySplit sep cs with
    | nil => exact absurd h (pySplit_ne_nil sep cs)
    | cons hd tl =>
      rw [h] at ih
      by_cases hc : c = sep
      · subst hc
        simp [List.count_cons] at ih ⊢
        omega
      · simp [hc, List.count_cons, Ne.symm hc] at ih ⊢
        omega

theorem pySplit_of_count_zero (sep : Char) (s : List Char) (h : s.count sep = 0) :
    pySplit sep s = [s] := by
  induction s with
  | nil => simp [pySplit]
  | cons c cs ih =>
    have hc : ¬c = sep := by
      intro hc
      subst hc
      simp [List.count_cons] at h
    have hcs : cs.count sep = 0 := by
      simp [List.count_cons, Ne.symm hc] at h
      exact h
    unfold pySplit
    rw [ih hcs]
    simp [hc]

theorem pySplit_of_count_one (sep : Char) (s : List Char) (h : s.count sep = 1) :
    pySplit sep s =
      [s.takeWhile (fun c => c ≠ sep), (s.dropWhile (fun c => c ≠ sep)).tail] := by
  induction s with
  | nil => simp [List.count_nil] at h
  | cons c cs ih =>
    by_cases hc : c = sep
    · subst hc
      have hcs : cs.count c = 0 := by
        simp [List.count_cons] at h
        exact h
      unfold pySplit
      rw [pySplit_of_count_zero c cs hcs]
      simp [List.takeWhile, List.dropWhile]
    · have hcs : cs.count sep = 1 := by
        simp [List.count_cons, Ne.symm hc] at h
        exact h
      have ihcs := ih hcs
      unfold pySplit
      rw [ihcs]
      simp [hc, List.takeWhile, List.dropWhile]

theorem dictGet_dictSet_self {α β : Type} [DecidableEq α] (d : List (α × β)) (k : α) (v : β) :
    dictGet (dictSet d k v) k = some v := by
  induction d with
  | nil => simp [dictSet, dictGet]
  | cons p rest ih =>
    by_cases h : p.1 = k
    · simp [dictSet, dictGet, h]
    · simp [dictSet, dictGet, h, ih]

theorem dictGet_dictSet_ne {α β : Type} [DecidableEq α] (d : List (α × β)) (k k' : α) (v : β)
    (h : k' ≠ k) : dictGet (dictSet d k' v) k = dictGet d k := by
  induction d with
  | nil => simp [dictSet, dictGet, h]
  | cons p rest ih =>
    by_cases hp : p.1 = k'
    · subst hp
      simp [dictSet, dictGet, h]
    · have h2 : ¬k = k' := fun hh => h hh.symm
      by_cases hk : p.1 = k
      · simp [dictSet, dictGet, hp, hk, h2]
      · simp [dictSet, dictGet, hp, hk, h2, ih]

theorem dictGet_eq_none {α β : Type} [DecidableEq α] (d : List (α × β)) (k : α)
    (h : k ∉ d.map Prod.fst) : dictGet d k = none := by
  induction d with
  | nil => rfl
  | cons p rest ih =>
    simp only [List.map_cons, List.mem_cons, not_or] at h
    have h1 : ¬p.1 = k := fun hh => h.1 hh.symm
    simp [dictGet, h1, ih h.2]

theorem dictGet_dictMerge {α β : Type} [DecidableEq α] (d1 d2 : List (α × β)) (k : α)
    (hnd : (d2.map Prod.fst).Nodup) :
    dictGet (dictMerge d1 d2) k =
      match dictGet d2 k with
      | some v => some v
      | none => dictGet d1 k := by
  induction d2 generalizing d1 with
  | nil => simp [dictMerge, dictGet]
  | cons p rest ih =>
    simp only [List.map_cons, List.nodup_cons] at hnd
    obtain ⟨hp, hrest⟩ := hnd
    have hm : dictMerge d1 (p :: rest) = dictMerge (dictSet d1 p.1 p.2) rest := rfl
    rw [hm, ih _ hrest]
    by_cases hk : p.1 = k
    · subst hk
      have hnone : dictGet rest p.1 = none := dictGet_eq_none rest p.1 hp
      simp [dictGet, hnone, dictGet_dictSet_self]
    · simp [dictGet, hk, dictGet_dictSet_ne _ _ _ _ hk]

theorem mem_dictSet_keys {α β : Type} [DecidableEq α] (d : List (α × β)) (k x : α) (v : β) :
    x ∈ (dictSet d k v).map Prod.fst ↔ x ∈ d.map Prod.fst ∨ x = k := by
  induction d with
  | nil => simp [dictSet]
  | cons p rest ih =>
    by_cases hk : p.1 = k
    · subst hk
      simp [dictSet]
      tauto
    · simp [dictSet, hk, ih]
      tauto

theorem dictSet_keys_nodup {α β : Type} [DecidableEq α] (d : List (α × β)) (k : α) (v : β)
    (h : (d.map Prod.fst).Nodup) : ((dictSet d k v).map Prod.fst).Nodup := by
  induction d with
  | nil => simp [dictSet]
  | cons p rest ih =>
    simp only [List.map_cons, List.nodup_cons] at h
    obtain ⟨hp, hrest⟩ := h
    by_cases hk : p.1 = k
    · subst hk
      have hd : dictSet (p :: rest) p.1 v = (p.1, v) :: rest := by simp [dictSet]
      rw [hd]
      simp only [List.map_cons, List.nodup_cons]
      exact ⟨hp, hrest⟩
    · simp only [dictSet, hk, if_false, List.map_cons, List.nodup_cons]
      refine ⟨fun hmem => ?_, ih hrest⟩
      rcases (mem_dictSet_keys rest k p.1 v).mp hmem with hin | heq
      · exact hp hin
      · exact hk heq

theorem foldl_dictSet_keys_nodup {α β : Type} [DecidableEq α] (ps : List (α × β))
    (d : List (α × β)) (h : (d.map Prod.fst).Nodup) :
    ((ps.foldl (fun acc p => dictSet acc p.1 p.2) d).map Prod.fst).Nodup := by
  induction ps generalizing d with
  | nil => exact h
  | cons p rest ih => exact ih _ (dictSet_keys_nodup _ _ _ h)

theorem specExtraDict_keys_nodup (args : List PyStr) :
    ((specExtraDict args).map Prod.fst).Nodup :=
  foldl_dictSet_keys_nodup _ [] (by simp)

theorem merge_fold_characterization (args : List PyStr) (d : List (PyStr × PyStr))
    (w : List PyStr) :
    args.foldl
      (fun acc arg =>
        match pySplit '=' arg with
        | [key, value] => (dictSet acc.1 key value, acc.2)
        | _ => (acc.1, acc.2 ++ [arg]))
      (d, w) =
    ((args.filterMap wellFormedBinding).foldl (fun acc p => dictSet acc p.1 p.2) d,
      w ++ args.filter (fun a => decide (a.count '=' ≠ 1))) := by
  induction args generalizing d w with
  | nil => simp
  | cons a rest ih =>
    by_cases hc : a.count '=' = 1
    · have hsplit := pySplit_of_count_one '=' a hc
      simp only [List.foldl_cons, hsplit, List.filterMap_cons, List.filter_cons,
        wellFormedBinding, hc, if_pos]
      simp [wellFormedBinding, hc, ih]
    · have hlen : (pySplit '=' a).length ≠ 2 := by
        rw [pySplit_length]
        omega
      have hwf : wellFormedBinding a = none := by simp [wellFormedBinding, hc]
      rcases hsp : pySplit '=' a with _ | ⟨x, _ | ⟨y, t⟩⟩
      · simp only [List.foldl_cons, hsp, List.filterMap_cons, hwf, List.filter_cons]
        simp [hc, ih]
      · simp only [List.foldl_cons, hsp, List.filterMap_cons, hwf, List.filter_cons]
        simp [hc, ih]
      · rcases t with _ | ⟨z, t2⟩
        · rw [hsp] at hlen
          simp at hlen
        · simp only [List.foldl_cons, hsp, List.filterMap_cons, hwf, List.filter_cons]
          simp [hc, ih]

theorem get_merged_keyword_args_eq (kwargs : List (PyStr × PyStr)) (extra_args : List PyStr) :
    get_merged_keyword_args kwargs extra_args =
      (dictMerge kwargs (specExtraDict extra_args),
       extra_args.filter (fun a => decide (a.count '=' ≠ 1))) := by
  unfold get_merged_keyword_args specExtraDict
  rw [merge_fold_characterization]
  simp

theorem loadAll_names {Dir Cfg Res Comp : Type}
    (ps : List (String × PipelineWrapper Dir Cfg Res Comp))
    (l : List (String × PluginInstance Dir Cfg Res Comp))
    (h : loadAll ps = .ok l) : l.map Prod.fst = ps.map Prod.fst := by
  induction ps generalizing l with
  | nil =>
    simp [loadAll] at h
    subst h
    rfl
  | cons p rest ih =>
    unfold loadAll at h
    cases hl : p.2.load_pipeline with
    | error e =>
      rw [hl] at h
      simp at h
    | ok pi =>
      rw [hl] at h
      cases hr : loadAll rest with
      | error e =>
        rw [hr] at h
        simp at h
      | ok ps' =>
        rw [hr] at h
        simp at h
        subst h
        simp [ih ps' hr]

theorem findMissingCommand_none {Dir Cfg Res Comp : Type} (cmd : String)
    (l : List (String × PluginInstance Dir Cfg Res Comp))
    (h : ∀ x ∈ l, x.2.hasCommand cmd = true) : findMissingCommand cmd l = none := by
  induction l with
  | nil => rfl
  | cons p rest ih =>
    have hp := h p (by simp)
    simp only [findMissingCommand, hp, if_true]
    exact ih (fun x hx => h x (by simp [hx]))

theorem findMissingCommand_some {Dir Cfg Res Comp : Type} (cmd : String)
    (l : List (String × PluginInstance Dir Cfg Res Comp))
    (h : ∃ x ∈ l, x.2.hasCommand cmd = false) :
    ∃ n, findMissingCommand cmd l = some n := by
  induction l with
  | nil => simp at h
  | cons p rest ih =>
    by_cases hp : p.2.hasCommand cmd
    · have hrest : ∃ x ∈ rest, x.2.hasCommand cmd = false := by
        obtain ⟨x, hx, hxf⟩ := h
        rcases List.mem_cons.mp hx with heq | hmem
        · subst heq
          rw [hp] at hxf
          cases hxf
        · exact ⟨x, hmem, hxf⟩
      obtain ⟨n, hn⟩ := ih hrest
      exact ⟨n, by simp [findMissingCommand, hp, hn]⟩
    · exact ⟨p.1, by simp [findMissingCommand, hp]⟩

theorem findMissingCommand_spec {Dir Cfg Res Comp : Type} (cmd : String)
    (l : List (String × PluginInstance Dir Cfg Res Comp)) (n : String)
    (h : findMissingCommand cmd l = some n) :
    ∃ p, (n, p) ∈ l ∧ p.hasCommand cmd = false := by
  induction l with
  | nil => simp [findMissingCommand] at h
  | cons q rest ih =>
    by_cases hq : q.2.hasCommand cmd
    · simp only [findMissingCommand, hq, if_true] at h
      obtain ⟨p, hmem, hp⟩ := ih h
      exact ⟨p, by simp [hmem], hp⟩
    · simp only [findMissingCommand, hq, if_false] at h
      injection h with h
      subst h
      exact ⟨q.2, by simp, by simp [hq]⟩

theorem invokeLoop_eq {Dir Cfg Res Comp : Type}
    (L : List (String × PluginInstance Dir Cfg Res Comp)) (cmd : String)
    (kw : List (PyStr × PyStr)) (D : List (String × DeploymentWrapper Dir Cfg)) :
    invokeLoop L cmd kw D =
      (D.map (fun d => (d.1, L.map (fun p =>
          (p.1, p.2.invoke cmd (d.2.get_pipeline_data_dir p.1) d.2.load_config kw)))),
       D.flatMap (fun d => L.map (fun p => (d.1, p.1)))) := by
  induction D with
  | nil => rfl
  | cons d rest ih => simp [invokeLoop, ih]

theorem flatMap_pairs_length {γ δ : Type} (D : List δ) (L : List γ) (g : δ → γ → String × String) :
    (D.flatMap (fun d => L.map (g d))).length = D.length * L.length := by
  induction D with
  | nil => simp
  | cons d rest ih => simp [ih, Nat.succ_mul, Nat.add_comm]

theorem count_pair_map {γ : Type} (c dn pn : String) (L : List (String × γ)) :
    ((L.map (fun p => (c, p.1))).count (dn, pn)) =
      if c = dn then (L.map Prod.fst).count pn else 0 := by
  induction L with
  | nil => simp
  | cons q rest ih =>
    simp only [List.map_cons, List.count_cons, ih]
    by_cases hc : c = dn
    · subst hc
      by_cases hq : q.1 = pn
      · simp [hq, Prod.ext_iff]
      · simp [hq, Prod.ext_iff]
    · simp [hc, Prod.ext_iff]

theorem count_pairs_flatMap_zero {γ δ : Type} (dn pn : String)
    (D : List (String × δ)) (L : List (String × γ))
    (h : dn ∉ D.map Prod.fst) :
    ((D.flatMap (fun d => L.map (fun p => (d.1, p.1)))).count (dn, pn)) = 0 := by
  induction D with
  | nil => simp
  | cons d rest ih =>
    simp only [List.map_cons, List.mem_cons, not_or] at h
    have hd : ¬d.1 = dn := fun hh => h.1 hh.symm
    simp only [List.flatMap_cons, List.count_append, count_pair_map, hd, if_false, ih h.2]

theorem count_pairs_flatMap_one {γ δ : Type} (dn pn : String)
    (D : List (String × δ)) (L : List (String × γ))
    (hD : (D.map Prod.fst).Nodup) (hL : (L.map Prod.fst).Nodup)
    (hdn : dn ∈ D.map Prod.fst) (hpn : pn ∈ L.map Prod.fst) :
    ((D.flatMap (fun d => L.map (fun p => (d.1, p.1)))).count (dn, pn)) = 1 := by
  induction D with
  | nil => simp at hdn
  | cons d rest ih =>
    simp only [List.map_cons, List.nodup_cons] at hD
    obtain ⟨hd, hrest⟩ := hD
    simp only [List.flatMap_cons, List.count_append, count_pair_map]
    rcases List.mem_cons.mp hdn with heq | hmem
    · subst heq
      rw [if_pos rfl, List.count_eq_one_of_mem hL hpn,
        count_pairs_flatMap_zero _ _ _ _ hd]
    · have hne : ¬d.1 = dn := by
        intro hh
        subst hh
        exact hd hmem
      rw [if_neg hne, ih hrest hmem]

theorem resolveDeployments_eq {Dir Cfg : Type}
    (deps : List (String × DeploymentWrapper Dir Cfg)) (names : List String)
    (f : String → DeploymentWrapper Dir Cfg)
    (h : ∀ n ∈ names, dictGet deps n = some (f n)) :
    resolveDeployments deps names = .ok (names.map f) := by
  induction names with
  | nil => rfl
  | cons n rest ih =>
    have hn := h n (by simp)
    have hrest := ih (fun m hm => h m (by simp [hm]))
    simp [resolveDeployments, hn, hrest]

theorem noImplMsg_head (rd : String) : (noImplMsg rd).data.head? = some 'N' := rfl

theorem multiImplMsg_head (rd : String) (ps : List String) :
    (multiImplMsg rd ps).data.head? = some 'M' := rfl

theorem noImplMsg_ne_multiImplMsg (rd : String) (ps : List String) :
    noImplMsg rd ≠ multiImplMsg rd ps := by
  intro h
  have hh : (noImplMsg rd).data.head? = (multiImplMsg rd ps).data.head? :=
    congrArg (fun s => s.data.head?) h
  rw [noImplMsg_head, multiImplMsg_head] at hh
  simp at hh

/-- C2 counterexample: on a repository with zero `*.pipeline.py` matches and
on one with two matches, `load_pipeline_instance` raises errors of the very
same kind (`FileNotFoundError` both times); the two conditions are *not*
surfaced as different kinds of error, only their messages differ. -/
theorem discovery_errors_same_kind_counterexample :
    exceptKind (load_pipeline_instance envZeroMatches "repo" []).1 = some "FileNotFoundError" ∧
    exceptKind (load_pipeline_instance envTwoMatches "repo" []).1 = some "FileNotFoundError" ∧
    exceptKind (load_pipeline_instance envZeroMatches "repo" []).1 =
      exceptKind (load_pipeline_instance envTwoMatches "repo" []).1 :=
  ⟨rfl, rfl, rfl⟩

/-- C2 (amended): zero matches and two-or-more matches during
plugin-definition discovery are both fatal, surfaced as errors of the same
kind (`FileNotFoundError`) that are distinguished only by their distinct
messages. -/
theorem discovery_errors_distinct_messages
    (env1 env2 : RepoEnv) (rd : String) (sp1 sp2 : List String)
    (h0 : env1.module_paths = [])
    (h2 : 2 ≤ env2.module_paths.length) :
    (load_pipeline_instance env1 rd sp1).1 = .error ⟨"FileNotFoundError", noImplMsg rd⟩ ∧
    ∃ e2, (load_pipeline_instance env2 rd sp2).1 = .error e2 ∧
      e2.kind = "FileNotFoundError" ∧ e2.msg = multiImplMsg rd env2.module_paths ∧
      e2.msg ≠ noImplMsg rd := by
  constructor
  · unfold load_pipeline_instance
    rw [h0]
  · rcases hm : env2.module_paths with _ | ⟨p1, _ | ⟨p2, rest⟩⟩
    · rw [hm] at h2
      simp at h2
    · rw [hm] at h2
      simp at h2
    · refine ⟨⟨"FileNotFoundError", multiImplMsg rd (p1 :: p2 :: rest)⟩, ?_, rfl, ?_, ?_⟩
      · unfold load_pipeline_instance
        rw [hm]
      · rfl
      · exact fun hh => noImplMsg_ne_multiImplMsg rd (p1 :: p2 :: rest) hh.symm

/-- C2 witness: the amended theorem applied at a zero-match repository and
a two-match repository. -/
theorem discovery_errors_distinct_messages_witness :
    envZeroMatches.module_paths = [] ∧ 2 ≤ envTwoMatches.module_paths.length ∧
    ((load_pipeline_instance envZeroMatches "repo" []).1 =
        .error ⟨"FileNotFoundError", noImplMsg "repo"⟩ ∧
      ∃ e2, (load_pipeline_instance envTwoMatches "repo" []).1 = .error e2 ∧
        e2.kind = "FileNotFoundError" ∧
        e2.msg = multiImplMsg "repo" envTwoMatches.module_paths ∧
        e2.msg ≠ noImplMsg "repo") :=
  ⟨rfl, by decide,
    discovery_errors_distinct_messages envZeroMatches envTwoMatches "repo" [] [] rfl (by decide)⟩

/-- C3: the claim that the `sys.path` mutation is reverted on every exit
path is right about the intent but wrong about the code: there is no
`try/finally` around `exec_module`, so when executing the plugin module
raises, `load_pipeline_instance` propagates the exception with the
repository directory still prepended to `sys.path` — the final `sys.path`
differs from the entry value. -/
theorem sys_path_leak_on_exec_failure :
    (load_pipeline_instance envExecRaises "repo" ["site-packages"]).2 =
      ["repo", "site-packages"] ∧
    exceptKind (load_pipeline_instance envExecRaises "repo" ["site-packages"]).1 =
      some "Exception" ∧
    ["repo", "site-packages"] ≠ ["site-packages"] :=
  ⟨rfl, rfl, by decide⟩

/-- C4: once a first `get_pipeline_class` call has resolved and cached a
plugin class, every later call returns that identical cached class
reference with the wrapper state unchanged, and does so for *any*
filesystem/import environment — in particular without re-running the
filesystem scan or the module load. -/
theorem get_pipeline_class_cached (env : RepoEnv) (repo_dir : String)
    (st st' : PipelineClassState) (c : Nat)
    (h : get_pipeline_class env repo_dir st = (.ok (some c), st')) :
    ∀ (env2 : RepoEnv) (rd2 : String),
      get_pipeline_class env2 rd2 st' = (.ok (some c), st') := by
  have hcache : st'.pipeline_class = some c := by
    unfold get_pipeline_class at h
    cases hc : st.pipeline_class with
    | some c0 =>
      rw [hc] at h
      obtain ⟨h1, h2⟩ := Prod.mk.injEq .. ▸ h
      injection h1 with h1
      injection h1 with h1
      subst h2
      rw [hc, h1]
    | none =>
      rw [hc] at h
      rcases hm : env.module_paths with _ | ⟨p1, _ | ⟨p2, rest⟩⟩ <;> rw [hm] at h
      · simp at h
      · by_cases hs : env.spec_ok
        · simp only [hs, if_true] at h
          by_cases hl : env.loader_ok
          · simp only [hl, if_true] at h
            by_cases he : env.exec_ok
            · simp only [he, if_true] at h
              obtain ⟨h1, h2⟩ := Prod.mk.injEq .. ▸ h
              injection h1 with h1
              subst h2
              exact h1
            · simp [he] at h
          · simp [hl] at h
        · simp [hs] at h
      · simp at h
  intro env2 rd2
  unfold get_pipeline_class
  rw [hcache]

/-- C4 witness: the theorem applied to a wrapper whose first call resolved
class 7 from a well-formed repository; the second call is evaluated against
a completely different environment (one with zero matching files) and still
returns the cached class with the state untouched. -/
theorem get_pipeline_class_cached_witness :
    get_pipeline_class envGood "repo" ⟨none, ["site"]⟩ = (.ok (some 7), ⟨some 7, ["site"]⟩) ∧
    get_pipeline_class envZeroMatches "elsewhere" ⟨some 7, ["site"]⟩ =
      (.ok (some 7), ⟨some 7, ["site"]⟩) :=
  ⟨rfl,
    get_pipeline_class_cached envGood "repo" ⟨none, ["site"]⟩ ⟨some 7, ["site"]⟩ 7 rfl
      envZeroMatches "elsewhere"⟩

/-- C7: `update_pipelines` calls `update()` on every registered pipeline
exactly once, in registry order, producing one log entry per pipeline; a
pipeline whose update raises yields a `failed` entry (the exception is
caught and logged) and does not prevent any later pipeline from being
attempted. -/
theorem update_pipelines_attempts_each_once {Dir Cfg Res Comp : Type}
    (ps : List (String × PipelineWrapper Dir Cfg Res Comp)) :
    update_pipelines ps =
      ps.map (fun x =>
        match x.2.update with
        | .ok _ => UpdateLogEntry.updated x.1
        | .error e => UpdateLogEntry.failed x.1 e) ∧
    (update_pipelines ps).map UpdateLogEntry.name = ps.map Prod.fst := by
  constructor
  · induction ps with
    | nil => rfl
    | cons p rest ih =>
      unfold update_pipelines
      cases hp : p.2.update <;> simp [hp, ih]
  · induction ps with
    | nil => rfl
    | cons p rest ih =>
      unfold update_pipelines
      cases hp : p.2.update <;> simp [UpdateLogEntry.name, ih]

/-- C8: `save_config` with `None` or with an empty mapping never invokes
the config-file codec — the configuration file's contents are returned
unchanged, whatever the codec's write behaviour; only a non-empty
configuration is handed to the codec to be written. -/
theorem save_config_falsy_noop {K V F : Type} (write : List (K × V) → F → F) (file : F)
    (c : List (K × V)) (hc : c ≠ []) :
    save_config write none file = file ∧
    save_config write (some []) file = file ∧
    save_config write (some c) file = write c file := by
  refine ⟨rfl, rfl, ?_⟩
  cases c with
  | nil => exact absurd rfl hc
  | cons x xs => rfl

/-- C8 witness: the theorem applied with a concrete codec, existing file
contents and a non-empty configuration. -/
theorem save_config_falsy_noop_witness :
    ([("a", "1")] ≠ ([] : List (String × String))) ∧
    save_config (fun cfg _ => cfg) none [("old", "0")] = [("old", "0")] ∧
    save_config (fun cfg _ => cfg) (some []) [("old", "0")] = [("old", "0")] ∧
    save_config (fun cfg _ => cfg) (some [("a", "1")]) [("old", "0")] = [("a", "1")] := by
  refine ⟨by simp, ?_, ?_, ?_⟩
  · exact (save_config_falsy_noop (fun cfg _ => cfg) [("old", "0")] [("a", "1")] (by simp)).1
  · exact (save_config_falsy_noop (fun cfg _ => cfg) [("old", "0")] [("a", "1")] (by simp)).2.1
  · exact (save_config_falsy_noop (fun cfg _ => cfg) [("old", "0")] [("a", "1")] (by simp)).2.2

/-- C9: merging extra `key=value` arguments is total and never fatal: the
merged keyword arguments are exactly `kwargs` updated with the bindings of
the entries containing exactly one `'='` (key = text before the first `'='`,
value = text after it), and every other entry is dropped from the merge and
appears in the warning log instead. -/
theorem merged_kwargs_drop_malformed (kwargs : List (PyStr × PyStr))
    (extra_args : List PyStr) :
    get_merged_keyword_args kwargs extra_args =
      (dictMerge kwargs (specExtraDict extra_args),
       extra_args.filter (fun a => decide (a.count '=' ≠ 1))) :=
  get_merged_keyword_args_eq kwargs extra_args

/-- C10: on a key collision, the extra `key=value` arguments win: whenever
the parsed extra-argument dict binds `k` to `v`, the merged keyword
arguments bind `k` to `v`, even though `kwargs` already binds `k` to some
other value `w`. -/
theorem merged_kwargs_extra_overrides (kwargs : List (PyStr × PyStr))
    (extra_args : List PyStr) (k v w : PyStr)
    (hk : dictGet kwargs k = some w)
    (hx : dictGet (specExtraDict extra_args) k = some v) :
    dictGet (get_merged_keyword_args kwargs extra_args).1 k = some v := by
  rw [get_merged_keyword_args_eq]
  rw [dictGet_dictMerge kwargs (specExtraDict extra_args) k (specExtraDict_keys_nodup extra_args)]
  rw [hx]

/-- C10 witness: `kwargs` binds `a` to `1`, the extra argument `a=2` binds
`a` to `2`, and the merged keyword arguments bind `a` to `2`. -/
theorem merged_kwargs_extra_overrides_witness :
    dictGet [("a".toList, "1".toList)] "a".toList = some "1".toList ∧
    dictGet (specExtraDict ["a=2".toList]) "a".toList = some "2".toList ∧
    dictGet (get_merged_keyword_args [("a".toList, "1".toList)] ["a=2".toList]).1 "a".toList =
      some "2".toList :=
  ⟨by decide, by decide,
    merged_kwargs_extra_overrides [("a".toList, "1".toList)] ["a=2".toList]
      "a".toList "2".toList "1".toList (by decide) (by decide)⟩

/-- C1: when every targeted pipeline's plugin loads but the requested
command is absent on at least one loaded plugin instance, `run_command`
raises a `RunCommandError` naming an offending pipeline, and the invocation
trace is empty — the named operation is invoked on no
(pipeline, deployment) pair at all. -/
theorem run_command_missing_command_no_invocation {Dir Cfg Res Comp : Type}
    (proj : ProjectWrapper Dir Cfg Res Comp) (command_name : String)
    (pipeline_name deployment_name : Option String)
    (extra_args : List PyStr) (kwargs : List (PyStr × PyStr))
    (targetsP : List (String × PipelineWrapper Dir Cfg Res Comp))
    (hP : selectTargets proj.pipeline_wrappers pipeline_name instrumentMissingError =
      .ok targetsP)
    (targetsD : List (String × DeploymentWrapper Dir Cfg))
    (hD : selectTargets proj.deployment_wrappers deployment_name deploymentMissingError =
      .ok targetsD)
    (hDne : targetsD ≠ [])
    (loaded : List (String × PluginInstance Dir Cfg Res Comp))
    (hload : loadAll targetsP = .ok loaded)
    (hmiss : ∃ x ∈ loaded, x.2.hasCommand command_name = false) :
    ∃ m p, (m, p) ∈ loaded ∧ p.hasCommand command_name = false ∧
      run_command proj command_name pipeline_name deployment_name extra_args kwargs =
        (.error (commandNotExistError command_name m), []) := by
  obtain ⟨n, hn⟩ := findMissingCommand_some command_name loaded hmiss
  obtain ⟨p, hmem, hp⟩ := findMissingCommand_spec command_name loaded n hn
  refine ⟨n, p, hmem, hp, ?_⟩
  unfold run_command
  simp only [hP, hD, hload, hn]

/-- C1 witness: a project with two pipelines and one deployment where the
second pipeline's plugin lacks `run_process`; `run_command` fails naming
`camB` and the invocation trace is empty. -/
theorem run_command_missing_command_no_invocation_witness :
    (selectTargets demoProjBad.pipeline_wrappers none instrumentMissingError =
      .ok demoProjBad.pipeline_wrappers) ∧
    (selectTargets demoProjBad.deployment_wrappers none deploymentMissingError =
      .ok demoProjBad.deployment_wrappers) ∧
    demoProjBad.deployment_wrappers ≠ [] ∧
    loadAll demoProjBad.pipeline_wrappers = .ok demoLoadedBad ∧
    (∃ x ∈ demoLoadedBad, x.2.hasCommand "run_process" = false) ∧
    (∃ m p, (m, p) ∈ demoLoadedBad ∧ p.hasCommand "run_process" = false ∧
      run_command demoProjBad "run_process" none none [] [] =
        (.error (commandNotExistError "run_process" m), [])) := by
  have hx : ∃ x ∈ demoLoadedBad, x.2.hasCommand "run_process" = false := by
    refine ⟨("camB", plugNoCmd), ?_, rfl⟩
    unfold demoLoadedBad
    exact List.mem_cons_of_mem _ (List.mem_cons_self _ _)
  refine ⟨rfl, rfl, by simp [demoProjBad], rfl, hx, ?_⟩
  exact run_command_missing_command_no_invocation demoProjBad "run_process" none none [] []
    demoProjBad.pipeline_wrappers rfl demoProjBad.deployment_wrappers rfl
    (by simp [demoProjBad]) demoLoadedBad rfl hx

theorem sum_inner_lengths {γ δ ε : Type} (D : List δ) (L : List γ)
    (name : δ → String) (g : δ → γ → ε) :
    ((D.map (fun d => (name d, L.map (g d)))).map (fun e => e.2.length)).sum =
      D.length * L.length := by
  induction D with
  | nil => simp
  | cons d rest ih =>
    simp only [List.map_cons, List.sum_cons, List.length_cons, List.length_map]
    rw [ih, Nat.succ_mul]
    omega

/-- C5: with no pipeline and no deployment filter, when every registered
pipeline's plugin loads and supports the command, `run_command` invokes
the named operation exactly `|pipelines| × |deployments|` times — once per
(pipeline, deployment) pair, in deployment-major order — and returns the
aggregate mapping each deployment name to the mapping from each pipeline
name to that pair's result, with exactly `|pipelines| × |deployments|`
leaf entries. -/
theorem run_command_full_fanout {Dir Cfg Res Comp : Type}
    (proj : ProjectWrapper Dir Cfg Res Comp) (command_name : String)
    (extra_args : List PyStr) (kwargs : List (PyStr × PyStr))
    (loaded : List (String × PluginInstance Dir Cfg Res Comp))
    (hload : loadAll proj.pipeline_wrappers = .ok loaded)
    (hall : ∀ x ∈ loaded, x.2.hasCommand command_name = true)
    (hPnd : (proj.pipeline_wrappers.map Prod.fst).Nodup)
    (hDnd : (proj.deployment_wrappers.map Prod.fst).Nodup) :
    run_command proj command_name none none extra_args kwargs =
      (.ok (proj.deployment_wrappers.map (fun d =>
          (d.1, loaded.map (fun p =>
            (p.1, p.2.invoke command_name (d.2.get_pipeline_data_dir p.1) d.2.load_config
              (get_merged_keyword_args kwargs extra_args).1))))),
       proj.deployment_wrappers.flatMap (fun d => loaded.map (fun p => (d.1, p.1)))) ∧
    (run_command proj command_name none none extra_args kwargs).2.length =
      proj.pipeline_wrappers.length * proj.deployment_wrappers.length ∧
    (∀ dn pn, dn ∈ proj.deployment_wrappers.map Prod.fst →
      pn ∈ proj.pipeline_wrappers.map Prod.fst →
      ((run_command proj command_name none none extra_args kwargs).2.count (dn, pn)) = 1) ∧
    ((proj.deployment_wrappers.map (fun d =>
        (d.1, loaded.map (fun p =>
          (p.1, p.2.invoke command_name (d.2.get_pipeline_data_dir p.1) d.2.load_config
            (get_merged_keyword_args kwargs extra_args).1))))).map
        (fun e => e.2.length)).sum =
      proj.pipeline_wrappers.length * proj.deployment_wrappers.length := by
  have hnames := loadAll_names proj.pipeline_wrappers loaded hload
  have hlen : loaded.length = proj.pipeline_wrappers.length := by
    have := congrArg List.length hnames
    simpa using this
  have hLnd : (loaded.map Prod.fst).Nodup := by
    rw [hnames]
    exact hPnd
  have hfm := findMissingCommand_none command_name loaded hall
  have hrc : run_command proj command_name none none extra_args kwargs =
      (.ok (proj.deployment_wrappers.map (fun d =>
          (d.1, loaded.map (fun p =>
            (p.1, p.2.invoke command_name (d.2.get_pipeline_data_dir p.1) d.2.load_config
              (get_merged_keyword_args kwargs extra_args).1))))),
       proj.deployment_wrappers.flatMap (fun d => loaded.map (fun p => (d.1, p.1)))) := by
    unfold run_command selectTargets
    simp only [hload, hfm, invokeLoop_eq]
  refine ⟨hrc, ?_, ?_, ?_⟩
  · rw [hrc]
    have h := flatMap_pairs_length proj.deployment_wrappers loaded
      (fun d p => (d.1, p.1))
    rw [h, hlen, Nat.mul_comm]
  · intro dn pn hdn hpn
    rw [hrc]
    exact count_pairs_flatMap_one dn pn proj.deployment_wrappers loaded hDnd hLnd hdn
      (hnames ▸ hpn)
  · have h := sum_inner_lengths proj.deployment_wrappers loaded (fun d => d.1)
      (fun d p =>
        (p.1, p.2.invoke command_name (d.2.get_pipeline_data_dir p.1) d.2.load_config
          (get_merged_keyword_args kwargs extra_args).1))
    rw [hlen] at h
    exact h.trans (Nat.mul_comm _ _)

/-- C5 witness: the 2-pipeline × 2-deployment demo project: the aggregate
and the trace are exactly the 2 × 2 cross product, and the trace has
length 4. -/
theorem run_command_full_fanout_witness :
    loadAll demoProj.pipeline_wrappers = .ok demoLoaded ∧
    (∀ x ∈ demoLoaded, x.2.hasCommand "run_process" = true) ∧
    (demoProj.pipeline_wrappers.map Prod.fst).Nodup ∧
    (demoProj.deployment_wrappers.map Prod.fst).Nodup ∧
    run_command demoProj "run_process" none none [] [] =
      (.ok [("d1", [("camA", "data/d1/camA|cfg-d1"), ("camB", "data/d1/camB|cfg-d1")]),
            ("d2", [("camA", "data/d2/camA|cfg-d2"), ("camB", "data/d2/camB|cfg-d2")])],
       [("d1", "camA"), ("d1", "camB"), ("d2", "camA"), ("d2", "camB")]) ∧
    (run_command demoProj "run_process" none none [] []).2.length = 2 * 2 := by
  refine ⟨rfl, by decide, by decide, by decide, ?_, ?_⟩
  · have h := run_command_full_fanout demoProj "run_process" [] [] demoLoaded rfl
      (by decide) (by decide) (by decide)
    exact h.1.trans (by rfl)
  · exact (run_command_full_fanout demoProj "run_process" [] [] demoLoaded rfl
      (by decide) (by decide) (by decide)).2.1

/-- C6: for deployment names that all exist in the project, `compose`
passes the data-directory list and the configuration list to the plugin's
`run_compose` in exactly the order the names were given: the i-th data
directory and the i-th configuration both come from the i-th named
deployment. -/
theorem compose_preserves_order {Dir Cfg Res Comp : Type}
    (proj : ProjectWrapper Dir Cfg Res Comp) (pipeline_name : String)
    (deployment_names : List String) (extra_args : List PyStr)
    (kwargs : List (PyStr × PyStr)) (pw : PipelineWrapper Dir Cfg Res Comp)
    (hpw : dictGet proj.pipeline_wrappers pipeline_name = some pw)
    (p : PluginInstance Dir Cfg Res Comp) (hp : pw.load_pipeline = .ok p)
    (f : String → DeploymentWrapper Dir Cfg)
    (hf : ∀ n ∈ deployment_names, dictGet proj.deployment_wrappers n = some (f n)) :
    compose proj pipeline_name deployment_names extra_args kwargs =
      .ok (p.run_compose
        (deployment_names.map (fun n => (f n).get_pipeline_data_dir pipeline_name))
        (deployment_names.map (fun n => (f n).load_config))
        (get_merged_keyword_args kwargs extra_args).1) := by
  have hres := resolveDeployments_eq proj.deployment_wrappers deployment_names f hf
  unfold compose
  simp only [hpw, hp, hres, List.map_map]
  rfl

/-- C6 witness: composing `camA` over the deployments named in the order
`["d2", "d1"]` hands `run_compose` the data directories and configurations
in exactly that order. -/
theorem compose_preserves_order_witness :
    dictGet demoProj.pipeline_wrappers "camA" =
      some (⟨.ok plugProcess, .ok ()⟩ : PipelineWrapper String String String
        (List String × List String)) ∧
    (⟨.ok plugProcess, .ok ()⟩ : PipelineWrapper String String String
        (List String × List String)).load_pipeline = .ok plugProcess ∧
    (∀ n ∈ ["d2", "d1"], dictGet demoProj.deployment_wrappers n = some (demoDeployment n)) ∧
    compose demoProj "camA" ["d2", "d1"] [] [] =
      .ok (["data/d2/camA", "data/d1/camA"], ["cfg-d2", "cfg-d1"]) := by
  have hf : ∀ n ∈ ["d2", "d1"], dictGet demoProj.deployment_wrappers n =
      some (demoDeployment n) := by
    intro n hn
    simp only [List.mem_cons, List.not_mem_nil, or_false] at hn
    rcases hn with rfl | rfl <;> rfl
  refine ⟨rfl, rfl, hf, ?_⟩
  have h := compose_preserves_order demoProj "camA" ["d2", "d1"] [] []
    ⟨.ok plugProcess, .ok ()⟩ rfl plugProcess rfl (fun n => demoDeployment n) hf
  exact h.trans (by rfl)
